import Mathlib

/-!
# ICM42688P driver header: register table, capacity constants and driver state

Shallow embedding of `src/drivers/imu/invensense/icm42688p/ICM42688P.hpp`.

The header includes `InvenSense_ICM42688P_registers.hpp`, `PX4Gyroscope.hpp` and
`drv_hrt.h`, none of which is part of the sources at hand.  Enumerator values and
sizes that these headers define are therefore parameters of the embedding
(`RegisterBits`, `Sizes`), and the member functions, whose bodies live in the
absent `ICM42688P.cpp`, are modelled from the specification.
-/

namespace ICM42688P

/-! ## Constants of the header -/

/-- `static constexpr uint32_t GYRO_RATE{8000}` (8 kHz gyro). -/
def GYRO_RATE : Nat := 8000

/-- `static constexpr uint32_t ACCEL_RATE{8000}` (8 kHz accel). -/
def ACCEL_RATE : Nat := 8000

/-- Sizes declared outside the header: `FIFO::SIZE`, `sizeof(FIFO::DATA)` (register
header) and the element count of `PX4Gyroscope::FIFOSample::x`
(`sizeof(x) / sizeof(x[0])`). -/
structure Sizes where
  FIFO_SIZE : Nat
  sizeof_FIFO_DATA : Nat
  FIFOSample_x_len : Nat
  deriving Repr, DecidableEq

/-- `FIFO_MAX_SAMPLES{ math::min(FIFO::SIZE / sizeof(FIFO::DATA) + 1,
sizeof(PX4Gyroscope::FIFOSample::x) / sizeof(PX4Gyroscope::FIFOSample::x[0])) }`. -/
def FIFO_MAX_SAMPLES (k : Sizes) : Nat :=
  min (k.FIFO_SIZE / k.sizeof_FIFO_DATA + 1) k.FIFOSample_x_len

/-! ## Register table -/

/-- Enumerators of `Register::BANK_0` that the header refers to.  The enum itself is
declared in the absent register header; its address values are given by a separate
map where a statement is about addresses. -/
inductive BANK_0 where
  | INT_CONFIG
  | FIFO_CONFIG
  | PWR_MGMT0
  | GYRO_CONFIG0
  | ACCEL_CONFIG0
  | FIFO_CONFIG1
  | FIFO_CONFIG2
  | FIFO_CONFIG3
  | INT_CONFIG0
  | INT_CONFIG1
  | INT_SOURCE0
  deriving Repr, DecidableEq

/-- Single-bit masks `Bit0` .. `Bit7`, declared in the absent register header and
read by their names: `Bit n` is `1 << n`. -/
def Bit (n : Nat) : Nat := 1 <<< n

/-- Bit-field enumerators of the absent register header that the table uses as
`set_bits`; each is a `uint8_t` enumerator whose value the header at hand does not
show. -/
structure RegisterBits where
  INT1_DRIVE_CIRCUIT : Nat
  FIFO_MODE_STOP_ON_FULL : Nat
  GYRO_MODE_LOW_NOISE : Nat
  ACCEL_MODE_LOW_NOISE : Nat
  GYRO_ODR_8kHz : Nat
  ACCEL_ODR_8kHz : Nat
  FIFO_WM_GT_TH : Nat
  FIFO_GYRO_EN : Nat
  FIFO_ACCEL_EN : Nat
  CLEAR_ON_FIFO_READ : Nat
  INT_TPULSE_DURATION : Nat
  FIFO_THS_INT1_EN : Nat
  deriving Repr, DecidableEq

/-- `struct register_bank0_config_t { Register::BANK_0 reg; uint8_t set_bits{0};
uint8_t clear_bits{0}; }`. -/
structure register_bank0_config_t where
  reg : BANK_0
  set_bits : Nat := 0
  clear_bits : Nat := 0
  deriving Repr, DecidableEq

/-- `static constexpr uint8_t size_register_bank0_cfg{11}`. -/
def size_register_bank0_cfg : Nat := 11

/-- The initialiser list of `_register_bank0_cfg[size_register_bank0_cfg]`, in source
order. -/
def _register_bank0_cfg (b : RegisterBits) : List register_bank0_config_t :=
  [ ⟨BANK_0.INT_CONFIG, b.INT1_DRIVE_CIRCUIT, 0⟩,
    ⟨BANK_0.FIFO_CONFIG, b.FIFO_MODE_STOP_ON_FULL, 0⟩,
    ⟨BANK_0.PWR_MGMT0, b.GYRO_MODE_LOW_NOISE ||| b.ACCEL_MODE_LOW_NOISE, 0⟩,
    ⟨BANK_0.GYRO_CONFIG0, b.GYRO_ODR_8kHz, Bit 7 ||| Bit 6 ||| Bit 5 ||| Bit 3 ||| Bit 2⟩,
    ⟨BANK_0.ACCEL_CONFIG0, b.ACCEL_ODR_8kHz, Bit 7 ||| Bit 6 ||| Bit 5 ||| Bit 3 ||| Bit 2⟩,
    ⟨BANK_0.FIFO_CONFIG1, b.FIFO_WM_GT_TH ||| b.FIFO_GYRO_EN ||| b.FIFO_ACCEL_EN, 0⟩,
    ⟨BANK_0.FIFO_CONFIG2, 0, 0⟩,
    ⟨BANK_0.FIFO_CONFIG3, 0, 0⟩,
    ⟨BANK_0.INT_CONFIG0, b.CLEAR_ON_FIFO_READ, 0⟩,
    ⟨BANK_0.INT_CONFIG1, b.INT_TPULSE_DURATION, 0⟩,
    ⟨BANK_0.INT_SOURCE0, b.FIFO_THS_INT1_EN, 0⟩ ]

/-- The mask `Bit7 | Bit6 | Bit5 | Bit3 | Bit2` that the two output-data-rate entries
clear. -/
def odrClearMask : Nat := Bit 7 ||| Bit 6 ||| Bit 5 ||| Bit 3 ||| Bit 2

/-- One assignment of the bit-field enumerators, following the register map of the
device data sheet (for instance the 8 kHz output data rate is code `0011`).  It
serves as a concrete instance only; statements about the table are made for
every assignment. -/
def sampleBits : RegisterBits where
  INT1_DRIVE_CIRCUIT := Bit 1
  FIFO_MODE_STOP_ON_FULL := Bit 7 ||| Bit 6
  GYRO_MODE_LOW_NOISE := Bit 3 ||| Bit 2
  ACCEL_MODE_LOW_NOISE := Bit 1 ||| Bit 0
  GYRO_ODR_8kHz := Bit 1 ||| Bit 0
  ACCEL_ODR_8kHz := Bit 1 ||| Bit 0
  FIFO_WM_GT_TH := Bit 5
  FIFO_GYRO_EN := Bit 1
  FIFO_ACCEL_EN := Bit 0
  CLEAR_ON_FIFO_READ := Bit 3
  INT_TPULSE_DURATION := Bit 6
  FIFO_THS_INT1_EN := Bit 2

/-- One injective assignment of bus addresses to the register enumerators, following
the bank 0 register map of the device data sheet. -/
def sampleAddr : BANK_0 → Nat
  | .INT_CONFIG => 0x14
  | .FIFO_CONFIG => 0x16
  | .PWR_MGMT0 => 0x4E
  | .GYRO_CONFIG0 => 0x4F
  | .ACCEL_CONFIG0 => 0x50
  | .FIFO_CONFIG1 => 0x5F
  | .FIFO_CONFIG2 => 0x60
  | .FIFO_CONFIG3 => 0x61
  | .INT_CONFIG0 => 0x63
  | .INT_CONFIG1 => 0x64
  | .INT_SOURCE0 => 0x65

/-! ## Driver state and data members -/

/-- `enum class STATE : uint8_t { RESET, WAIT_FOR_RESET, CONFIGURE, FIFO_READ,
REQUEST_STOP, STOPPED }`. -/
inductive STATE where
  | RESET
  | WAIT_FOR_RESET
  | CONFIGURE
  | FIFO_READ
  | REQUEST_STOP
  | STOPPED
  deriving Repr, DecidableEq

/-- Underlying `uint8_t` value of an enumerator: none has an initialiser, so they
count up from zero in declaration order. -/
def STATE.toUInt8 : STATE → Nat
  | .RESET => 0
  | .WAIT_FOR_RESET => 1
  | .CONFIGURE => 2
  | .FIFO_READ => 3
  | .REQUEST_STOP => 4
  | .STOPPED => 5

/-- The enumerators of `STATE` in declaration order. -/
def STATE.all : List STATE :=
  [.RESET, .WAIT_FOR_RESET, .CONFIGURE, .FIFO_READ, .REQUEST_STOP, .STOPPED]

/-- `static_cast<uint8_t>(_fifo_empty_interval_us / (1000000 / rate))`, the
initialiser of `_fifo_gyro_samples` and `_fifo_accel_samples`; the division is done
in 32-bit unsigned arithmetic and the cast keeps the low 8 bits. -/
def fifoSamplesInit (fifo_empty_interval_us rate : Nat) : Nat :=
  (fifo_empty_interval_us / (1000000 / rate)) % 2 ^ 8

/-- Data members of the driver object that carry a default member initialiser and
take part in the statements below; the defaults are those of the header. -/
structure Driver where
  _reset_timestamp : Nat := 0
  _last_config_check_timestamp : Nat := 0
  _fifo_watermark_interrupt_timestamp : Nat := 0
  _temperature_update_timestamp : Nat := 0
  _data_ready_count : Nat := 0
  _fifo_read_samples : Nat := 0
  _data_ready_interrupt_enabled : Bool := false
  _state : STATE := STATE.RESET
  _fifo_empty_interval_us : Nat := 500
  _fifo_gyro_samples : Nat := fifoSamplesInit _fifo_empty_interval_us GYRO_RATE
  _fifo_accel_samples : Nat := fifoSamplesInit _fifo_empty_interval_us ACCEL_RATE
  _checked_register_bank0 : Nat := 0
  deriving Repr, DecidableEq

/-- A freshly constructed driver object: every member holds its default member
initialiser. -/
def Driver.fresh : Driver := {}

/-! ## Configuration manager (bodies in the absent `ICM42688P.cpp`) -/

/-- Modelled from the spec: the device behind the bus transport of §6
(`write(register, value)`, `read(register) -> byte`), which is not part of the
sources: one byte per bank 0 register, a read returning the byte last written,
together with the "bad register" counter of the metrics sink. -/
structure Device where
  regs : BANK_0 → Nat
  bad_register_perf : Nat := 0

/-- Modelled from the spec: `uint8_t RegisterRead(Register::BANK_0 reg)`, declared in
the header with its body absent; §6 `read(register) -> byte`. -/
def RegisterRead (d : Device) (reg : BANK_0) : Nat :=
  d.regs reg

/-- Modelled from the spec: `void RegisterWrite(Register::BANK_0 reg, uint8_t value)`,
declared in the header with its body absent; §6 `write(register, value)`.  The value
is a `uint8_t`, so its low 8 bits are stored. -/
def RegisterWrite (d : Device) (reg : BANK_0) (value : Nat) : Device :=
  { d with regs := fun r => if r = reg then value % 2 ^ 8 else d.regs r }

/-- Modelled from the spec: `void RegisterSetAndClearBits(Register::BANK_0 reg,
uint8_t setbits, uint8_t clearbits)`, declared in the header with its body absent;
§4.2 "set-then-clear the specified bits, leaving unspecified bits untouched": the
register is read, `setbits` are or-ed in, then `clearbits` are masked out with the
8-bit complement, and the result is written back. -/
def RegisterSetAndClearBits (d : Device) (reg : BANK_0) (setbits clearbits : Nat) : Device :=
  let orig_val := RegisterRead d reg
  let val := (orig_val ||| setbits) &&& (0xFF ^^^ clearbits)
  RegisterWrite d reg val

/-- Modelled from the spec: `bool RegisterCheck(const register_bank0_config_t &reg_cfg,
bool notify)`, declared in the header with its body absent; §4.2 "reads back each
register to confirm the resulting value matches the intended bit pattern": every bit
of `set_bits` reads 1 and every bit of `clear_bits` reads 0.  The `notify` flag only
drives the metrics and is left out. -/
def RegisterCheck (d : Device) (reg_cfg : register_bank0_config_t) : Bool :=
  let reg_value := RegisterRead d reg_cfg.reg
  (reg_value &&& reg_cfg.set_bits == reg_cfg.set_bits) &&
    (reg_value &&& reg_cfg.clear_bits == 0)

/-- Modelled from the spec: the write pass of `Configure()` over a table, entry by
entry in table order. -/
def writeTable (cfg : List register_bank0_config_t) (d : Device) : Device :=
  cfg.foldl (fun d e => RegisterSetAndClearBits d e.reg e.set_bits e.clear_bits) d

/-- Modelled from the spec: `bool Configure()`, declared in the header with its body
absent; §4.2 "writes every entry in the register table ... and reads back each
register ...  Returns success/failure; failure increments a bad register signal and
does not retry internally".  The result is the device after the call and the
returned flag. -/
def Configure (b : RegisterBits) (d : Device) : Device × Bool :=
  let d1 := writeTable (_register_bank0_cfg b) d
  let success := (_register_bank0_cfg b).all (RegisterCheck d1)
  (if success then d1 else { d1 with bad_register_perf := d1.bad_register_perf + 1 }, success)

/-- The byte an entry's set-and-clear update leaves in a register that held `v`. -/
def setAndClear (e : register_bank0_config_t) (v : Nat) : Nat :=
  ((v ||| e.set_bits) &&& (0xFF ^^^ e.clear_bits)) % 2 ^ 8

/-- A device whose bank 0 registers all hold `0xA5`. -/
def sampleDevice : Device := { regs := fun _ => 0xA5 }

/-! ## Sample processor (bodies in the absent `ICM42688P.cpp`) -/

/-- Modelled from the spec: the raw FIFO packet `FIFO::DATA` of the absent register
header; §6 "header byte (validity/marker flag) followed by fixed-width signed fields
for accel-x/y/z, temperature, gyro-x/y/z". -/
structure FIFO.DATA where
  FIFO_Header : Nat
  ACCEL_X : Int
  ACCEL_Y : Int
  ACCEL_Z : Int
  TEMP : Int
  GYRO_X : Int
  GYRO_Y : Int
  GYRO_Z : Int
  deriving Repr, DecidableEq

/-- `struct TransferBuffer { uint8_t cmd; FIFO::DATA f[FIFO_MAX_SAMPLES]; }`; the array
`f` is a list of packets, indexed from 0. -/
structure TransferBuffer where
  cmd : Nat
  f : List FIFO.DATA
  deriving Repr, DecidableEq

/-- One sample handed to the publishing sink: its timestamp in microseconds and the
three raw axis values.  The scaling to physical units is floating point and is left
out. -/
structure Sample where
  timestamp_sample : Int
  x : Int
  y : Int
  z : Int
  deriving Repr, DecidableEq

/-- Modelled from the spec: the back-dating of §4.4, "the newest sample gets the
delivery timestamp and earlier samples in the same batch get progressively earlier
timestamps spaced by the configured sample period".  The specification gives
timestamps no machine width, so they are exact integers: an item followed by `m`
later items gets `t - m * period`. -/
def backdate {α : Type} (t : Int) (period : Nat) : List α → List (Int × α)
  | [] => []
  | p :: ps => (t - (ps.length : Int) * (period : Int), p) :: backdate t period ps

/-- Modelled from the spec: the packets of a batch that are decoded, §4.3 "packets
whose header byte marks them invalid/marker records are recognized and excluded":
of the first `samples` packets of the buffer, those whose header byte is valid, in
arrival order.  Which header bytes are valid is defined by the absent register
header and is the parameter `valid`. -/
def validPackets (valid : Nat → Bool) (buffer : TransferBuffer) (samples : Nat) :
    List FIFO.DATA :=
  (buffer.f.take samples).filter (fun p => valid p.FIFO_Header)

/-- Modelled from the spec: `bool ProcessAccel(const hrt_abstime &timestamp_sample,
const TransferBuffer *const buffer, uint8_t samples)`, declared in the header with
its body absent; §4.4: one accelerometer sample per valid packet, in arrival order,
back-dated from the batch timestamp by the period `1000000 / ACCEL_RATE`.  The
result is the list of samples produced. -/
def ProcessAccel (valid : Nat → Bool) (timestamp_sample : Int) (buffer : TransferBuffer)
    (samples : Nat) : List Sample :=
  (backdate timestamp_sample (1000000 / ACCEL_RATE) (validPackets valid buffer samples)).map
    (fun tp => ⟨tp.1, tp.2.ACCEL_X, tp.2.ACCEL_Y, tp.2.ACCEL_Z⟩)

/-- Modelled from the spec: `void ProcessGyro(const hrt_abstime &timestamp_sample,
const TransferBuffer *const buffer, uint8_t samples)`, declared in the header with
its body absent; §4.4: one gyroscope sample per valid packet, in arrival order,
back-dated from the batch timestamp by the period `1000000 / GYRO_RATE`.  The result
is the list of samples produced. -/
def ProcessGyro (valid : Nat → Bool) (timestamp_sample : Int) (buffer : TransferBuffer)
    (samples : Nat) : List Sample :=
  (backdate timestamp_sample (1000000 / GYRO_RATE) (validPackets valid buffer samples)).map
    (fun tp => ⟨tp.1, tp.2.GYRO_X, tp.2.GYRO_Y, tp.2.GYRO_Z⟩)

/-- A header byte is taken as valid when its top bit is clear (used for concrete
instances only). -/
def sampleValid (h : Nat) : Bool := h < 0x80

/-- A buffer of three packets, the middle one a marker record. -/
def sampleBuffer : TransferBuffer :=
  ⟨0, [⟨0x68, 1, 2, 3, 0, 4, 5, 6⟩, ⟨0x80, 0, 0, 0, 0, 0, 0, 0⟩, ⟨0x68, 7, 8, 9, 0, 10, 11, 12⟩]⟩

/-- The timestamps of a list of samples, in order. -/
def timestamps (l : List Sample) : List Int :=
  l.map (fun s => s.timestamp_sample)

/-- The raw axis values of a list of samples, in order. -/
def axes (l : List Sample) : List (Int × Int × Int) :=
  l.map (fun s => (s.x, s.y, s.z))

/-! ## Helper lemmas -/

/-- The header's formula keeps `FIFO_MAX_SAMPLES` within the sink's per-transfer
sample limit and within one more than the number of whole packets the device FIFO
holds, whatever the three sizes are; it is within the number of whole packets
exactly when the sink's limit is. -/
theorem FIFO_MAX_SAMPLES_le (k : Sizes) :
    FIFO_MAX_SAMPLES k ≤ k.FIFOSample_x_len ∧
      FIFO_MAX_SAMPLES k ≤ k.FIFO_SIZE / k.sizeof_FIFO_DATA + 1 ∧
      (FIFO_MAX_SAMPLES k ≤ k.FIFO_SIZE / k.sizeof_FIFO_DATA ↔
        k.FIFOSample_x_len ≤ k.FIFO_SIZE / k.sizeof_FIFO_DATA) := by
  unfold FIFO_MAX_SAMPLES
  omega

/-- The nine table entries other than the two output-data-rate entries have
`clear_bits = 0` in the header, so their masks are disjoint whatever the enumerator
values are; the whole table has disjoint masks exactly when the two 8 kHz rate
codes avoid the mask the rate entries clear. -/
theorem table_masks_disjoint_iff (b : RegisterBits) :
    (∀ e ∈ _register_bank0_cfg b, e.set_bits &&& e.clear_bits = 0) ↔
      (b.GYRO_ODR_8kHz &&& odrClearMask = 0 ∧ b.ACCEL_ODR_8kHz &&& odrClearMask = 0) := by
  constructor
  · intro h
    exact ⟨h ⟨BANK_0.GYRO_CONFIG0, b.GYRO_ODR_8kHz, odrClearMask⟩
        (by simp [_register_bank0_cfg, odrClearMask]),
      h ⟨BANK_0.ACCEL_CONFIG0, b.ACCEL_ODR_8kHz, odrClearMask⟩
        (by simp [_register_bank0_cfg, odrClearMask])⟩
  · rintro ⟨hg, ha⟩ e he
    simp only [_register_bank0_cfg, List.mem_cons, List.mem_singleton, List.not_mem_nil,
      or_false] at he
    rcases he with rfl | rfl | rfl | rfl | rfl | rfl | rfl | rfl | rfl | rfl | rfl
    all_goals first
      | exact Nat.and_zero _
      | exact hg
      | exact ha

theorem table_regs_nodup (b : RegisterBits) :
    ((_register_bank0_cfg b).map (fun e => e.reg)).Nodup := by
  simp [_register_bank0_cfg]

theorem setAndClear_idem (e : register_bank0_config_t) (v : Nat) :
    setAndClear e (setAndClear e v) = setAndClear e v := by
  unfold setAndClear
  apply Nat.eq_of_testBit_eq
  intro i
  simp only [Nat.testBit_mod_two_pow, Nat.testBit_and, Nat.testBit_or]
  cases decide (i < 8) <;> cases v.testBit i <;> cases e.set_bits.testBit i <;>
    cases (0xFF ^^^ e.clear_bits).testBit i <;> rfl


theorem RegisterSetAndClearBits_regs (d : Device) (e : register_bank0_config_t) (r : BANK_0) :
    (RegisterSetAndClearBits d e.reg e.set_bits e.clear_bits).regs r =
      if r = e.reg then setAndClear e (d.regs r) else d.regs r := by
  by_cases h : r = e.reg
  · subst h
    simp [RegisterSetAndClearBits, RegisterWrite, RegisterRead, setAndClear]
  · simp [RegisterSetAndClearBits, RegisterWrite, h]

theorem writeTable_cons (e : register_bank0_config_t) (cfg : List register_bank0_config_t)
    (d : Device) :
    writeTable (e :: cfg) d =
      writeTable cfg (RegisterSetAndClearBits d e.reg e.set_bits e.clear_bits) := rfl

theorem writeTable_regs_of_not_mem (cfg : List register_bank0_config_t) (d : Device) (r : BANK_0)
    (hr : r ∉ cfg.map (fun e => e.reg)) : (writeTable cfg d).regs r = d.regs r := by
  induction cfg generalizing d with
  | nil => rfl
  | cons e cfg ih =>
    simp only [List.map_cons, List.mem_cons, not_or] at hr
    rw [writeTable_cons, ih _ hr.2, RegisterSetAndClearBits_regs, if_neg hr.1]

theorem writeTable_regs_of_mem (cfg : List register_bank0_config_t)
    (hnd : (cfg.map (fun e => e.reg)).Nodup) (d : Device) (e : register_bank0_config_t)
    (he : e ∈ cfg) : (writeTable cfg d).regs e.reg = setAndClear e (d.regs e.reg) := by
  induction cfg generalizing d with
  | nil => cases he
  | cons e0 cfg ih =>
    simp only [List.map_cons, List.nodup_cons] at hnd
    rw [writeTable_cons]
    rcases List.mem_cons.1 he with rfl | hmem
    · rw [writeTable_regs_of_not_mem _ _ _ hnd.1, RegisterSetAndClearBits_regs, if_pos rfl]
    · have hne : e.reg ≠ e0.reg := by
        intro h
        exact hnd.1 (h ▸ List.mem_map_of_mem (fun e => e.reg) hmem)
      rw [ih hnd.2 _ hmem, RegisterSetAndClearBits_regs, if_neg hne]

theorem Configure_regs (b : RegisterBits) (d : Device) :
    (Configure b d).1.regs = (writeTable (_register_bank0_cfg b) d).regs := by
  unfold Configure
  dsimp only
  split <;> rfl

theorem Configure_success (b : RegisterBits) (d : Device) (hs : (Configure b d).2 = true)
    (e : register_bank0_config_t) (he : e ∈ _register_bank0_cfg b) :
    RegisterCheck (writeTable (_register_bank0_cfg b) d) e = true := by
  unfold Configure at hs
  exact List.all_eq_true.1 hs e he

theorem and_eq_self_testBit {x s : Nat} (h : x &&& s = s) (i : Nat) (hi : s.testBit i = true) :
    x.testBit i = true := by
  have := congrArg (fun n => n.testBit i) h
  simp only [Nat.testBit_and, hi, Bool.and_true] at this
  exact this

theorem and_eq_zero_testBit {x c : Nat} (h : x &&& c = 0) (i : Nat) (hi : c.testBit i = true) :
    x.testBit i = false := by
  have := congrArg (fun n => n.testBit i) h
  simp only [Nat.testBit_and, hi, Bool.and_true, Nat.zero_testBit] at this
  exact this

theorem testBit_ff_xor (c i : Nat) :
    (0xFF ^^^ c).testBit i = (decide (i < 8) ^^ c.testBit i) := by
  have h : (0xFF : Nat) = 2 ^ 8 - 1 := by decide
  rw [Nat.testBit_xor, h, Nat.testBit_two_pow_sub_one]

theorem testBit_of_lt_256 {x : Nat} (hx : x < 256) (i : Nat) (hi : 8 ≤ i) :
    x.testBit i = false := by
  apply Nat.testBit_lt_two_pow
  calc x < 2 ^ 8 := hx
    _ ≤ 2 ^ i := Nat.pow_le_pow_right (by decide) hi

theorem setAndClear_testBit (e : register_bank0_config_t) (v i : Nat) :
    (setAndClear e v).testBit i =
      (decide (i < 8) && ((v.testBit i || e.set_bits.testBit i) && !e.clear_bits.testBit i)) := by
  unfold setAndClear
  rw [Nat.testBit_mod_two_pow, Nat.testBit_and, Nat.testBit_or, testBit_ff_xor]
  cases decide (i < 8) <;> cases v.testBit i <;> cases e.set_bits.testBit i <;>
    cases e.clear_bits.testBit i <;> rfl


theorem backdate_length {α : Type} (t : Int) (period : Nat) (l : List α) :
    (backdate t period l).length = l.length := by
  induction l with
  | nil => rfl
  | cons p ps ih => simp [backdate, ih]

theorem backdate_map_snd {α : Type} (t : Int) (period : Nat) (l : List α) :
    (backdate t period l).map (fun tp => tp.2) = l := by
  induction l with
  | nil => rfl
  | cons p ps ih => simp [backdate, ih]

theorem backdate_chain {α : Type} (t : Int) (period : Nat) (l : List α) :
    ((backdate t period l).map (fun tp => tp.1)).Chain' (fun u v => v - u = (period : Int)) := by
  induction l with
  | nil => simp [backdate]
  | cons p ps ih =>
    cases ps with
    | nil => simp [backdate]
    | cons q qs =>
      simp only [backdate, List.map_cons, List.chain'_cons] at ih ⊢
      refine ⟨?_, ih⟩
      simp only [List.length_cons]
      push_cast
      ring

theorem backdate_getLast {α : Type} (t : Int) (period : Nat) (l : List α) (hl : l ≠ []) :
    ((backdate t period l).map (fun tp => tp.1)).getLast? = some t := by
  induction l with
  | nil => exact absurd rfl hl
  | cons p ps ih =>
    cases ps with
    | nil => simp [backdate]
    | cons q qs =>
      have := ih (by simp)
      simp only [backdate, List.map_cons] at this ⊢
      rw [List.getLast?_cons_cons]
      exact this

theorem backdate_head {α : Type} (t : Int) (period : Nat) (l : List α) (hl : l ≠ []) :
    ((backdate t period l).map (fun tp => tp.1)).head? =
      some (t - ((l.length : Int) - 1) * (period : Int)) := by
  cases l with
  | nil => exact absurd rfl hl
  | cons p ps =>
    simp only [backdate, List.map_cons, List.head?_cons, List.length_cons]
    push_cast
    congr 1
    ring

theorem backdate_pairwise {α : Type} (t : Int) (period : Nat) (hp : 0 < period) (l : List α) :
    ((backdate t period l).map (fun tp => tp.1)).Pairwise (fun u v => u < v) := by
  have hc := backdate_chain t period l
  have hlt : ((backdate t period l).map (fun tp => tp.1)).Chain' (fun u v => u < v) := by
    refine hc.imp ?_
    intro u v h
    have : (0 : Int) < period := by exact_mod_cast hp
    omega
  exact List.chain'_iff_pairwise.1 hlt

/-! ## Register table -/

/-- C7: the declared size `size_register_bank0_cfg` is 11 and, for any enumerator
values, the initialiser list of `_register_bank0_cfg` has exactly that many entries,
so no slot of the array is left to its default and a pass over the table visits 11
entries. -/
theorem register_table_size :
    size_register_bank0_cfg = 11 ∧
      ∀ b : RegisterBits, (_register_bank0_cfg b).length = size_register_bank0_cfg :=
  ⟨rfl, fun _ => rfl⟩

/-- C9: no register enumerator appears in two entries of `_register_bank0_cfg`, and
under any address map that gives distinct enumerators distinct addresses the 11
register addresses of the table are pairwise distinct. -/
theorem register_table_addresses_distinct (b : RegisterBits) (addr : BANK_0 → Nat)
    (hinj : Function.Injective addr) :
    ((_register_bank0_cfg b).map (fun e => e.reg)).Nodup ∧
      ((_register_bank0_cfg b).map (fun e => addr e.reg)).Nodup ∧
      ((_register_bank0_cfg b).map (fun e => addr e.reg)).length = 11 := by
  refine ⟨table_regs_nodup b, ?_, by simp [_register_bank0_cfg]⟩
  have h := (table_regs_nodup b).map hinj
  rw [List.map_map] at h
  exact h

/-- Instance of C9 at the data-sheet register addresses. -/
theorem register_table_addresses_distinct_witness :
    Function.Injective sampleAddr ∧
      ((_register_bank0_cfg sampleBits).map (fun e => sampleAddr e.reg)).Nodup :=
  have hinj : Function.Injective sampleAddr := by
    intro x y h
    cases x <;> cases y <;> first | rfl | exact absurd h (by decide)
  ⟨hinj, (register_table_addresses_distinct sampleBits sampleAddr hinj).2.1⟩

/-! ## Driver state and default members -/

/-- C8: `STATE` has exactly the six enumerators RESET, WAIT_FOR_RESET, CONFIGURE,
FIFO_READ, REQUEST_STOP and STOPPED, pairwise distinct also in their underlying
byte values, and a freshly constructed driver is in state RESET. -/
theorem state_enum_six_and_initial_reset :
    (∀ s : STATE, s = .RESET ∨ s = .WAIT_FOR_RESET ∨ s = .CONFIGURE ∨ s = .FIFO_READ ∨
        s = .REQUEST_STOP ∨ s = .STOPPED) ∧
      STATE.all.length = 6 ∧ STATE.all.Nodup ∧ (∀ s : STATE, s ∈ STATE.all) ∧
      Function.Injective STATE.toUInt8 ∧
      Driver.fresh._state = STATE.RESET := by
  refine ⟨?_, rfl, by decide, ?_, ?_, rfl⟩
  · intro s
    cases s <;> simp
  · intro s
    cases s <;> simp [STATE.all]
  · intro x y h
    cases x <;> cases y <;> first | rfl | exact absurd h (by decide)

/-- C10: with the default interval 500 and both rates 8000, the default per-transfer
counts `_fifo_gyro_samples` and `_fifo_accel_samples` are 4; `1000000 / 8000` is 125
without remainder, 500 is `4 * 125`, and the quotient is below 256, so the cast to
`uint8_t` keeps it. -/
theorem default_fifo_sample_counts :
    Driver.fresh._fifo_empty_interval_us = 500 ∧ GYRO_RATE = 8000 ∧ ACCEL_RATE = 8000 ∧
      Driver.fresh._fifo_gyro_samples = 4 ∧ Driver.fresh._fifo_accel_samples = 4 ∧
      1000000 / GYRO_RATE = 125 ∧ 1000000 % GYRO_RATE = 0 ∧
      1000000 / ACCEL_RATE = 125 ∧ 1000000 % ACCEL_RATE = 0 ∧
      Driver.fresh._fifo_empty_interval_us = 4 * (1000000 / GYRO_RATE) ∧
      Driver.fresh._fifo_empty_interval_us % (1000000 / GYRO_RATE) = 0 ∧
      Driver.fresh._fifo_empty_interval_us / (1000000 / GYRO_RATE) < 256 ∧
      Driver.fresh._fifo_empty_interval_us / (1000000 / ACCEL_RATE) < 256 := by
  decide

/-! ## Configuration manager -/

/-- C2: for every table entry and every prior 8-bit value of its register, after a
`Configure()` that returns success a read of the register gives
`(old_value AND NOT clear_bits) OR set_bits`: every bit of `set_bits` reads 1, every
bit of `clear_bits` reads 0, and a bit named in neither mask is unchanged. -/
theorem Configure_success_readback (b : RegisterBits) (d : Device)
    (e : register_bank0_config_t) (he : e ∈ _register_bank0_cfg b)
    (hold : RegisterRead d e.reg < 256) (hs : (Configure b d).2 = true) :
    RegisterRead (Configure b d).1 e.reg =
        (RegisterRead d e.reg &&& (0xFF ^^^ e.clear_bits)) ||| e.set_bits ∧
      RegisterRead (Configure b d).1 e.reg &&& e.set_bits = e.set_bits ∧
      RegisterRead (Configure b d).1 e.reg &&& e.clear_bits = 0 ∧
      ∀ i, e.set_bits.testBit i = false → e.clear_bits.testBit i = false →
        (RegisterRead (Configure b d).1 e.reg).testBit i = (RegisterRead d e.reg).testBit i := by
  have hnew : RegisterRead (Configure b d).1 e.reg = setAndClear e (RegisterRead d e.reg) := by
    unfold RegisterRead
    rw [Configure_regs, writeTable_regs_of_mem _ (table_regs_nodup b) d e he]
  have hchk := Configure_success b d hs e he
  unfold RegisterCheck at hchk
  simp only [Bool.and_eq_true, beq_iff_eq] at hchk
  have hw : RegisterRead (writeTable (_register_bank0_cfg b) d) e.reg
      = setAndClear e (RegisterRead d e.reg) := by
    unfold RegisterRead
    rw [writeTable_regs_of_mem _ (table_regs_nodup b) d e he]
  rw [hw] at hchk
  obtain ⟨hset, hclr⟩ := hchk
  rw [hnew]
  refine ⟨?_, hset, hclr, ?_⟩
  · apply Nat.eq_of_testBit_eq
    intro i
    have h1 := and_eq_self_testBit hset i
    have h2 := and_eq_zero_testBit hclr i
    rw [setAndClear_testBit] at h1 h2
    rw [setAndClear_testBit, Nat.testBit_or, Nat.testBit_and, testBit_ff_xor]
    by_cases hi : i < 8
    · simp only [hi, decide_True, Bool.true_and, Bool.true_xor] at h1 h2 ⊢
      cases hv : (RegisterRead d e.reg).testBit i <;> cases hsb : e.set_bits.testBit i <;>
        cases hcb : e.clear_bits.testBit i <;> simp_all
    · have ho := testBit_of_lt_256 hold i (by omega)
      simp only [hi, decide_False, Bool.false_and, Bool.false_xor] at h1 h2 ⊢
      cases hsb : e.set_bits.testBit i
      · simp [ho]
      · exact absurd (h1 hsb) (by simp)
  · intro i hsb hcb
    rw [setAndClear_testBit, hsb, hcb]
    by_cases hi : i < 8
    · simp [hi]
    · simp [hi, testBit_of_lt_256 hold i (by omega)]

/-- Instance of C2: the gyro rate entry on a device whose registers hold `0xA5`. -/
theorem Configure_success_readback_witness :
    RegisterRead (Configure sampleBits sampleDevice).1 BANK_0.GYRO_CONFIG0 = 0x03 ∧
      (Configure sampleBits sampleDevice).2 = true :=
  have hs : (Configure sampleBits sampleDevice).2 = true := by decide
  ⟨(Configure_success_readback sampleBits sampleDevice
      ⟨BANK_0.GYRO_CONFIG0, sampleBits.GYRO_ODR_8kHz, odrClearMask⟩
      (by simp [_register_bank0_cfg, odrClearMask]) (by decide) hs).1.trans (by decide), hs⟩

/-- C3: `Configure()` is idempotent on the register state: for every initial
register contents, the registers after two successive calls equal the registers
after one call; and for every table entry, applying its set-and-clear update to a
register twice leaves the same device as applying it once. -/
theorem Configure_idempotent (b : RegisterBits) (d : Device) :
    (Configure b (Configure b d).1).1.regs = (Configure b d).1.regs ∧
      ∀ e ∈ _register_bank0_cfg b, ∀ d0 : Device,
        (RegisterSetAndClearBits (RegisterSetAndClearBits d0 e.reg e.set_bits e.clear_bits)
            e.reg e.set_bits e.clear_bits).regs =
          (RegisterSetAndClearBits d0 e.reg e.set_bits e.clear_bits).regs := by
  constructor
  · funext r
    rw [Configure_regs b (Configure b d).1]
    by_cases hr : r ∈ (_register_bank0_cfg b).map (fun e => e.reg)
    · obtain ⟨e, he, rfl⟩ := List.mem_map.1 hr
      rw [writeTable_regs_of_mem _ (table_regs_nodup b) _ e he, Configure_regs,
        writeTable_regs_of_mem _ (table_regs_nodup b) _ e he, setAndClear_idem]
    · rw [writeTable_regs_of_not_mem _ _ _ hr]
  · intro e _ d0
    funext r
    rw [RegisterSetAndClearBits_regs, RegisterSetAndClearBits_regs]
    by_cases hr : r = e.reg
    · simp only [if_pos hr, setAndClear_idem]
    · simp only [if_neg hr]

/-! ## Sample processor -/

/-- C6: for a batch with N ≥ 1 valid packets and any delivery timestamp `t`,
`ProcessAccel` and `ProcessGyro` each produce exactly N samples carrying the axis
values of the valid packets in arrival order; their timestamps are strictly
increasing, consecutive ones differ by exactly the sample period
(`1000000 / ACCEL_RATE` resp. `1000000 / GYRO_RATE`, both 125 microseconds), and the
last one equals `t`; the first one is `t - (N - 1) * 125`. -/
theorem Process_samples_backdated (valid : Nat → Bool) (t : Int) (buffer : TransferBuffer)
    (samples : Nat) (hN : 1 ≤ (validPackets valid buffer samples).length) :
    (ProcessAccel valid t buffer samples).length = (validPackets valid buffer samples).length ∧
      (ProcessGyro valid t buffer samples).length = (validPackets valid buffer samples).length ∧
      axes (ProcessAccel valid t buffer samples) =
        (validPackets valid buffer samples).map (fun p => (p.ACCEL_X, p.ACCEL_Y, p.ACCEL_Z)) ∧
      axes (ProcessGyro valid t buffer samples) =
        (validPackets valid buffer samples).map (fun p => (p.GYRO_X, p.GYRO_Y, p.GYRO_Z)) ∧
      (timestamps (ProcessAccel valid t buffer samples)).Pairwise (fun u v => u < v) ∧
      (timestamps (ProcessGyro valid t buffer samples)).Pairwise (fun u v => u < v) ∧
      (timestamps (ProcessAccel valid t buffer samples)).Chain'
        (fun u v => v - u = ((1000000 / ACCEL_RATE : Nat) : Int)) ∧
      (timestamps (ProcessGyro valid t buffer samples)).Chain'
        (fun u v => v - u = ((1000000 / GYRO_RATE : Nat) : Int)) ∧
      (timestamps (ProcessAccel valid t buffer samples)).getLast? = some t ∧
      (timestamps (ProcessGyro valid t buffer samples)).getLast? = some t ∧
      1000000 / ACCEL_RATE = 125 ∧ 1000000 / GYRO_RATE = 125 ∧
      (timestamps (ProcessAccel valid t buffer samples)).head? =
        some (t - (((validPackets valid buffer samples).length : Int) - 1) * 125) ∧
      (timestamps (ProcessGyro valid t buffer samples)).head? =
        some (t - (((validPackets valid buffer samples).length : Int) - 1) * 125) := by
  have hne : validPackets valid buffer samples ≠ [] := by
    intro h
    rw [h] at hN
    exact absurd hN (by decide)
  have hta : timestamps (ProcessAccel valid t buffer samples) =
      (backdate t (1000000 / ACCEL_RATE) (validPackets valid buffer samples)).map
        (fun tp => tp.1) := by
    simp [timestamps, ProcessAccel, List.map_map, Function.comp_def]
  have htg : timestamps (ProcessGyro valid t buffer samples) =
      (backdate t (1000000 / GYRO_RATE) (validPackets valid buffer samples)).map
        (fun tp => tp.1) := by
    simp [timestamps, ProcessGyro, List.map_map, Function.comp_def]
  have hxa : axes (ProcessAccel valid t buffer samples) =
      ((backdate t (1000000 / ACCEL_RATE) (validPackets valid buffer samples)).map
        (fun tp => tp.2)).map (fun p => (p.ACCEL_X, p.ACCEL_Y, p.ACCEL_Z)) := by
    simp [axes, ProcessAccel, List.map_map, Function.comp_def]
  have hxg : axes (ProcessGyro valid t buffer samples) =
      ((backdate t (1000000 / GYRO_RATE) (validPackets valid buffer samples)).map
        (fun tp => tp.2)).map (fun p => (p.GYRO_X, p.GYRO_Y, p.GYRO_Z)) := by
    simp [axes, ProcessGyro, List.map_map, Function.comp_def]
  rw [hta, htg, hxa, hxg, backdate_map_snd, backdate_map_snd]
  refine ⟨?_, ?_, rfl, rfl, backdate_pairwise _ _ (by decide) _,
    backdate_pairwise _ _ (by decide) _, backdate_chain _ _ _, backdate_chain _ _ _,
    backdate_getLast _ _ _ hne, backdate_getLast _ _ _ hne, by decide, by decide,
    backdate_head _ _ _ hne, backdate_head _ _ _ hne⟩
  · simp [ProcessAccel, backdate_length]
  · simp [ProcessGyro, backdate_length]

/-- Instance of C6: a batch of three packets of which two are valid, delivered at
`t = 1000`. -/
theorem Process_samples_backdated_witness :
    (validPackets sampleValid sampleBuffer 3).length = 2 ∧
      timestamps (ProcessGyro sampleValid 1000 sampleBuffer 3) = [875, 1000] ∧
      (timestamps (ProcessGyro sampleValid 1000 sampleBuffer 3)).getLast? = some 1000 :=
  ⟨by decide, by decide,
    (Process_samples_backdated sampleValid 1000 sampleBuffer 3 (by decide)).2.2.2.2.2.2.2.2.2.1⟩

end ICM42688P
